import Mathlib

/-!
Verification development for the Customer-Support-RAG retrieval core.

This file gives a shallow embedding of the ranking engine
(`src/embeddings/smart_retrieval.py` with its configuration
`src/config/retrieval_config.py`), the structural chunker helpers
(`src/data_processing/intelligent_splitter.py`) and the region utilities
(`src/utils/text_processing.py`), and proves properties about them.

Embedding conventions:
* Python float arithmetic is modelled exactly over `ℚ` (the scores are
  small decimal combinations, so exact rational arithmetic is the intended
  reading of the weighted-sum formulas).
* Python datetimes are modelled at day granularity: a parsed date is an
  `Int` day ordinal (days since 1970-01-01) and `datetime.now()` becomes an
  explicit `now : Int` parameter.  `datetime.fromisoformat` is modelled for
  the `YYYY-MM-DD` shape; an unparsable string yields `none`, and the
  ranking code, which calls it without a handler, propagates that as an
  `Except.error` (the Python `ValueError` escaping `search`).
* The metadata dictionary of a `langchain` `Document` is modelled as a
  record of the optional fields the ranking engine reads, plus the
  transient `_score_boost` entry (field `score_boost`).
* `_classify_query` and `_has_negation` run regexes from the configuration
  through Python's `re` library; they are abstracted as function
  parameters `classify : String → List String` and `hasNeg : String → Bool`
  of the search model, and theorems quantify over them.
* The external vector store (`EmbeddingManager.similarity_search`) supplies
  the candidate list; the search model takes that list (`fetched`) as an
  argument.  Likewise `RecursiveCharacterTextSplitter.split_text` is an
  external library routine, abstracted as a parameter
  `baseSplit : Nat → Nat → String → List String` (chunk size, overlap, text).
-/

/-! ## Python-semantics helpers -/

/-- Truthiness of an optional string, as Python sees `metadata.get(k)`:
`None` and the empty string are falsy. -/
def pyTruthy : Option String → Bool
  | none => false
  | some s => s ≠ ""

/-- Python's `a or b` on optional strings (used for
`get('resolved_date') or get('created_date')` and
`get('version') or get('user_version')`). -/
def pyOr (a b : Option String) : Option String :=
  if pyTruthy a then a else b

/-- Python's `metadata.get(k, '')`. -/
def pyGetD (a : Option String) : String := a.getD ""

/-- Python's substring test `pat in hay`. -/
def strContains (hay pat : String) : Bool :=
  decide (List.IsInfix pat.toList hay.toList)

/-- Python's `text[a:b]` for `0 ≤ a ≤ b` (clamping at the ends). -/
def pySlice (s : String) (a b : Nat) : String :=
  String.mk ((s.toList.drop a).take (b - a))

/-- Python's `str.lower()` (ASCII model). -/
def pyLower (s : String) : String :=
  String.mk (s.toList.map Char.toLower)

/-- Splitting a character list at whitespace, keeping empty pieces
(helper for `str.split()`). -/
def splitWsAux : List Char → List Char → List (List Char)
  | [], acc => [acc.reverse]
  | c :: cs, acc =>
    if c.isWhitespace then acc.reverse :: splitWsAux cs []
    else splitWsAux cs (c :: acc)

/-- Python's no-argument `str.split()`: split at whitespace runs,
discarding empty pieces. -/
def pySplitWs (s : String) : List String :=
  ((splitWsAux s.toList []).map String.mk).filter (fun t => t ≠ "")

/-- Splitting a character list at a separator character, keeping empty
pieces (helper for `str.split(sep)`). -/
def splitCharAux (sep : Char) : List Char → List Char → List (List Char)
  | [], acc => [acc.reverse]
  | c :: cs, acc =>
    if c = sep then acc.reverse :: splitCharAux sep cs []
    else splitCharAux sep cs (c :: acc)

/-- Python's `str.split(sep)` for a one-character separator (keeps empty
pieces; `''.split(',') = ['']`). -/
def pySplitChar (sep : Char) (s : String) : List String :=
  (splitCharAux sep s.toList []).map String.mk

/-- Python's `str.strip()`: whitespace removed from both ends. -/
def pyStrip (s : String) : String :=
  String.mk (((s.toList.dropWhile Char.isWhitespace).reverse.dropWhile
    Char.isWhitespace).reverse)

/-- Python's `sep.join(parts)`. -/
def pyJoin (sep : String) : List String → String
  | [] => ""
  | [p] => p
  | p :: ps => p ++ sep ++ pyJoin sep ps

/-! ## Dates (`datetime.fromisoformat`, day granularity) -/

/-- Numeric value of a digit string. -/
def digitsToNat (s : List Char) : Nat :=
  s.foldl (fun a c => a * 10 + (c.toNat - 48)) 0

/-- Length of a month in the proleptic Gregorian calendar. -/
def daysInMonth (y m : Nat) : Nat :=
  if m = 2 then (if (y % 4 = 0 ∧ y % 100 ≠ 0) ∨ y % 400 = 0 then 29 else 28)
  else if m = 4 ∨ m = 6 ∨ m = 9 ∨ m = 11 then 30
  else 31

/-- Day ordinal (days since 1970-01-01) of a Gregorian date, for `y ≥ 1`
(Hinnant's `days_from_civil`). -/
def daysFromCivil (y m d : Nat) : Int :=
  let y' := if m ≤ 2 then y - 1 else y
  let era := y' / 400
  let yoe := y' % 400
  let mp := if 2 < m then m - 3 else m + 9
  let doy := (153 * mp + 2) / 5 + d - 1
  let doe := yoe * 365 + yoe / 4 - yoe / 100 + doy
  (era * 146097 + doe : Int) - 719468

/-- Model of `datetime.fromisoformat` restricted to the `YYYY-MM-DD` shape,
returning the date's day ordinal, or `none` when the string is unparsable
(where CPython raises `ValueError`). -/
def fromisoformat (s : String) : Option Int :=
  match s.toList with
  | [y1, y2, y3, y4, h1, m1, m2, h2, d1, d2] =>
    if h1 = '-' ∧ h2 = '-' ∧ ([y1, y2, y3, y4, m1, m2, d1, d2].all Char.isDigit) then
      let y := digitsToNat [y1, y2, y3, y4]
      let m := digitsToNat [m1, m2]
      let d := digitsToNat [d1, d2]
      if 1 ≤ y ∧ 1 ≤ m ∧ m ≤ 12 ∧ 1 ≤ d ∧ d ≤ daysInMonth y m then
        some (daysFromCivil y m d)
      else none
    else none
  | _ => none

/-! ## Data model -/

/-- The metadata fields of a candidate document that the ranking engine
reads, each optional as in the Python metadata dict.  `score_boost` is the
transient `'_score_boost'` entry written by `_boost_similar_cases`. -/
structure Metadata where
  source : Option String
  status : Option String
  version : Option String
  user_version : Option String
  category : Option String
  resolved_date : Option String
  created_date : Option String
  last_updated : Option String
  score_boost : Option ℚ
deriving DecidableEq, Repr

/-- A `langchain` `Document`: page content plus metadata. -/
structure Document where
  page_content : String
  metadata : Metadata
deriving DecidableEq, Repr

/-- A metadata record with every field absent. -/
def Metadata.empty : Metadata :=
  ⟨none, none, none, none, none, none, none, none, none⟩

/-- The per-candidate scoring record (`SearchResult` dataclass). -/
structure SearchResult where
  document : Document
  semantic_score : ℚ
  keyword_score : ℚ
  doc_priority : ℚ
  recency_score : ℚ
  final_score : ℚ
deriving DecidableEq, Repr

/-! ## Configuration (`retrieval_config.py`) -/

/-- `DOC_TYPE_PRIORITIES` lookup with Python's `.get(doc_type, 0)` default. -/
def DOC_TYPE_PRIORITIES (t : String) : ℚ :=
  if t = "product_doc" then 3
  else if t = "resolved_ticket" then 2
  else if t = "pending_ticket" then 1
  else 0

/-- `max(DOC_TYPE_PRIORITIES.values())`. -/
def MAX_PRIORITY : ℚ := 3

/-- `RECENCY_SETTINGS['recent_threshold']` in days. -/
def RECENT_THRESHOLD_DAYS : Int := 30

/-- `RECENCY_SETTINGS['max_age']` in days. -/
def MAX_AGE_DAYS : Int := 365

/-- `KEYWORD_SETTINGS['min_ngram']`. -/
def MIN_NGRAM : Nat := 1

/-- `KEYWORD_SETTINGS['max_ngram']`. -/
def MAX_NGRAM : Nat := 3

/-- `FINAL_RESULTS_K`. -/
def FINAL_RESULTS_K : Nat := 5

/-! ## Ranking engine (`smart_retrieval.py`) -/

/-- The candidate text terms of `query.lower().split()` (whitespace split,
empty pieces discarded, as in Python's no-argument `split`). -/
def querySplit (q : String) : List String :=
  pySplitWs (pyLower q)

/-- All word n-grams of the query terms for
`n = min_ngram .. max_ngram`, joined by single spaces
(the n-gram generation loop of `_calculate_keyword_score`). -/
def ngramsOf (terms : List String) : List String :=
  (List.range' MIN_NGRAM (MAX_NGRAM - MIN_NGRAM + 1)).flatMap fun n =>
    (if n ≤ terms.length then List.range (terms.length + 1 - n) else []).map fun i =>
      pyJoin " " ((terms.drop i).take n)

/-- `_calculate_keyword_score`: fraction of query n-grams occurring verbatim
in the lowercased document text. -/
def calc_keyword_score (query : String) (d : Document) : ℚ :=
  let ngrams := ngramsOf (querySplit query)
  let docText := pyLower d.page_content
  let nMatches := (ngrams.filter (fun g => strContains docText g)).length
  if ngrams.length = 0 then 0 else (nMatches : ℚ) / (ngrams.length : ℚ)

/-- The effective document type used by `_calculate_doc_priority`
(support tickets split into resolved/pending by status). -/
def effectiveDocType (d : Document) : String :=
  let t := pyGetD d.metadata.source
  if t = "support_ticket" then
    if pyLower (pyGetD d.metadata.status) = "resolved" then "resolved_ticket"
    else "pending_ticket"
  else t

/-- `_calculate_doc_priority`: priority table lookup normalized by the
maximum table value. -/
def calc_doc_priority (d : Document) : ℚ :=
  DOC_TYPE_PRIORITIES (effectiveDocType d) / MAX_PRIORITY

/-- The date field `_calculate_recency_score` reads: resolved-or-created
date for support tickets, last-updated otherwise. -/
def relevantDateField (d : Document) : Option String :=
  if d.metadata.source = some "support_ticket" then
    pyOr d.metadata.resolved_date d.metadata.created_date
  else d.metadata.last_updated

/-- The threshold/interpolation part of `_calculate_recency_score`, as a
function of the document age in days. -/
def recencyFromAge (age : Int) : ℚ :=
  if age ≤ RECENT_THRESHOLD_DAYS then 1
  else if MAX_AGE_DAYS ≤ age then 0
  else 1 - ((age - RECENT_THRESHOLD_DAYS : Int) : ℚ) / ((MAX_AGE_DAYS - RECENT_THRESHOLD_DAYS : Int) : ℚ)

/-- `_calculate_recency_score`.  A missing or empty date field scores 0.0;
a present but unparsable date field is a `ValueError` from
`datetime.fromisoformat`, modelled as `Except.error` (there is no handler
in the source). -/
def calc_recency_score (now : Int) (d : Document) : Except Unit ℚ :=
  match relevantDateField d with
  | none => .ok 0
  | some s =>
    if s = "" then .ok 0
    else
      match fromisoformat s with
      | some t => .ok (recencyFromAge (now - t))
      | none => .error ()

/-- `_calculate_final_score`: the weighted sum with the
`RELEVANCE_WEIGHTS` of the configuration. -/
def calc_final_score (r : SearchResult) : ℚ :=
  r.semantic_score * 0.4 + r.keyword_score * 0.3 +
    r.doc_priority * 0.2 + r.recency_score * 0.1

/-- The version a candidate reports:
`metadata.get('version') or metadata.get('user_version')`. -/
def effectiveVersion (d : Document) : Option String :=
  pyOr d.metadata.version d.metadata.user_version

/-- `_filter_by_version`: keep candidates whose (truthy) version equals the
requested one; with no (truthy) requested version, keep everything. -/
def filter_by_version (docs : List Document) (version : Option String) : List Document :=
  if pyTruthy version then
    docs.filter fun d =>
      pyTruthy (effectiveVersion d) && (effectiveVersion d == version)
  else docs

/-- The category list of a support ticket:
`metadata.get('category', '').split(',')`. -/
def docCategories (d : Document) : List String :=
  pySplitChar ',' (pyGetD d.metadata.category)

/-- `len(set(a) & set(b))`: the number of distinct strings common to both
lists. -/
def interCard (a b : List String) : Nat :=
  ((a.filter fun c => b.contains c).dedup).length

/-- The per-document step of `_boost_similar_cases`: a support ticket whose
categories overlap the query's classified categories in `m ≥ 1` categories
gets `'_score_boost' = 1 + 0.2 * m` written into its metadata. -/
def boostDoc (cats : List String) (d : Document) : Document :=
  if d.metadata.source = some "support_ticket" then
    if interCard cats (docCategories d) ≠ 0 then
      { d with metadata := { d.metadata with
          score_boost := some (1 + 0.2 * (interCard cats (docCategories d) : ℚ)) } }
    else d
  else d

/-- `_boost_similar_cases`: skipped entirely when the query classifies into
no category. -/
def boost_similar_cases (classify : String → List String) (query : String)
    (docs : List Document) : List Document :=
  if classify query = [] then docs else docs.map (boostDoc (classify query))

/-- The `metadata.pop('_score_boost', 1.0)` side effect on a document:
the transient boost entry is removed. -/
def popBoost (d : Document) : Document :=
  { d with metadata := { d.metadata with score_boost := none } }

/-- The `SearchResult` record the `search` loop builds for one candidate
once its recency score is available: the rank-derived semantic score
(`initial_results.index(doc)` against the current list state `docs`),
keyword and priority scores, negation inversion, the popped
`'_score_boost'` factor applied to semantic and keyword scores, and the
weighted final score. -/
def scoreDocOk (hasNegation : Bool) (query : String)
    (docs : List Document) (d : Document) (rcy : ℚ) : SearchResult :=
  let semantic0 : ℚ := 1 - (List.indexOf d docs : ℚ) / (docs.length : ℚ)
  let keyword0 := calc_keyword_score query d
  let pri := calc_doc_priority d
  let semantic1 := if hasNegation then 1 - semantic0 else semantic0
  let keyword1 := if hasNegation then 1 - keyword0 else keyword0
  let boost := d.metadata.score_boost.getD 1
  let r : SearchResult :=
    ⟨popBoost d, semantic1 * boost, keyword1 * boost, pri, rcy, 0⟩
  { r with final_score := calc_final_score r }

/-- Scoring of one candidate in the `search` loop.  `docs` is the current
state of the candidate list; a recency `ValueError` propagates. -/
def scoreDoc (hasNegation : Bool) (now : Int) (query : String)
    (docs : List Document) (d : Document) : Except Unit SearchResult :=
  match calc_recency_score now d with
  | .error e => .error e
  | .ok rcy => .ok (scoreDocOk hasNegation query docs d rcy)

/-- The scoring loop of `search`.  `done` holds the already-processed
candidates, whose `'_score_boost'` entries have been popped in place;
`rest` the candidates still to score.  The Python list the `index` call
searches is `done ++ rest` at each step. -/
def scoreLoop (hasNegation : Bool) (now : Int) (query : String) :
    List Document → List Document → Except Unit (List SearchResult)
  | _, [] => .ok []
  | done, d :: rest =>
    match scoreDoc hasNegation now query (done ++ d :: rest) d with
    | .error e => .error e
    | .ok r =>
      match scoreLoop hasNegation now query (done ++ [popBoost d]) rest with
      | .error e => .error e
      | .ok rs => .ok (r :: rs)

/-- The pipeline of `search` up to (and including) scoring: version filter,
category boost, then the scoring loop. -/
def scoredResults (classify : String → List String) (hasNeg : String → Bool)
    (now : Int) (query : String) (version : Option String)
    (fetched : List Document) : Except Unit (List SearchResult) :=
  scoreLoop (hasNeg query) now query []
    (boost_similar_cases classify query (filter_by_version fetched version))

/-- `search_results.sort(key=lambda x: x.final_score, reverse=True)`:
a stable sort, descending by final score. -/
def sortByFinal (rs : List SearchResult) : List SearchResult :=
  rs.mergeSort fun a b => decide (b.final_score ≤ a.final_score)

/-- `SmartRetrieval.search` over an already-fetched candidate list, with
the external pieces (`classify`, `hasNeg`, the clock `now`, the fetched
candidates) passed explicitly. -/
def search (classify : String → List String) (hasNeg : String → Bool)
    (now : Int) (query : String) (version : Option String) (k : Nat)
    (fetched : List Document) : Except Unit (List (Document × ℚ)) :=
  match scoredResults classify hasNeg now query version fetched with
  | .error e => .error e
  | .ok rs => .ok (((sortByFinal rs).take k).map fun r => (r.document, r.final_score))

/-! ## Regions and the chunker (`text_processing.py`, `intelligent_splitter.py`) -/

/-- A text region (the Python dicts with `start`, `end`, `content`,
`type`; `end` and `type` are Lean keywords, rendered `stop` and `kind`). -/
structure Region where
  start : Nat
  stop : Nat
  content : String
  kind : String
deriving DecidableEq, Repr

/-- The merging loop of `merge_overlapping_regions`: `prev` is the last
region of the merged list (`merged[-1]`), still growable. -/
def mergeLoop : Region → List Region → List Region
  | prev, [] => [prev]
  | prev, c :: rest =>
    if c.start ≤ prev.stop then
      if prev.stop < c.stop then
        mergeLoop { prev with stop := c.stop, content := prev.content ++ c.content } rest
      else mergeLoop prev rest
    else prev :: mergeLoop c rest

/-- `sorted(regions, key=lambda x: x['start'])` (a stable sort). -/
def sortRegions (regions : List Region) : List Region :=
  regions.mergeSort fun a b => decide (a.start ≤ b.start)

/-- `merge_overlapping_regions`. -/
def merge_overlapping_regions (regions : List Region) : List Region :=
  match sortRegions regions with
  | [] => []
  | r :: rest => mergeLoop r rest

/-- The loop of `_split_with_preserved_regions`, carrying `last_end`.
`baseSplit cs co t` stands for `RecursiveCharacterTextSplitter(cs, co).split_text(t)`. -/
def splitRegionsLoop (baseSplit : Nat → Nat → String → List String)
    (chunkSize chunkOverlap : Nat) (text : String) :
    Nat → List Region → List String
  | lastEnd, [] =>
    if lastEnd < text.length then
      let rem := pySlice text lastEnd text.length
      if pyStrip rem ≠ "" then baseSplit chunkSize chunkOverlap rem else []
    else []
  | lastEnd, r :: rest =>
    (if lastEnd < r.start then
      let pre := pySlice text lastEnd r.start
      if pyStrip pre ≠ "" then baseSplit chunkSize chunkOverlap pre else []
     else [])
    ++ (if chunkSize * 2 < r.content.length then
          baseSplit (chunkSize * 2) (chunkOverlap * 2) r.content
        else [r.content])
    ++ splitRegionsLoop baseSplit chunkSize chunkOverlap text r.stop rest

/-- `IntelligentSplitter._split_with_preserved_regions`. -/
def split_with_preserved_regions (baseSplit : Nat → Nat → String → List String)
    (chunkSize chunkOverlap : Nat) (text : String)
    (preserveRegions : List Region) : List String :=
  splitRegionsLoop baseSplit chunkSize chunkOverlap text 0 preserveRegions

/-! ## Basic lemmas about the embedding -/

theorem pyTruthy_some_iff {s : String} : pyTruthy (some s) = true ↔ s ≠ "" := by
  simp [pyTruthy]

theorem fromisoformat_ne_empty {s : String} {t : Int}
    (h : fromisoformat s = some t) : s ≠ "" := by
  intro he
  subst he
  exact Option.noConfusion h

/-- `_calculate_recency_score` on a parsable date field computes the
interpolated score of the document age. -/
theorem calc_recency_parsed {d : Document} {s : String} {t : Int} (now : Int)
    (hf : relevantDateField d = some s) (hp : fromisoformat s = some t) :
    calc_recency_score now d = .ok (recencyFromAge (now - t)) := by
  simp only [calc_recency_score, hf, if_neg (fromisoformat_ne_empty hp), hp]

/-- C4: for every document with a parsable relevant date (resolved or
created date for support tickets, last-updated otherwise), the recency
score is 1.0 when the age is at most 30 days, 0.0 when the age is at least
365 days, and the linear interpolation `1 - (age - 30)/(365 - 30)`,
strictly between 0 and 1, otherwise (in particular
`1 - (180 - 30)/(365 - 30)` at age 180); a document with no date field
scores 0.0. -/
theorem C4_recency_thresholds :
    (∀ (d : Document) (now t : Int) (s : String),
      relevantDateField d = some s → fromisoformat s = some t →
      (now - t ≤ 30 → calc_recency_score now d = .ok 1) ∧
      (365 ≤ now - t → calc_recency_score now d = .ok 0) ∧
      (30 < now - t → now - t < 365 →
        calc_recency_score now d = .ok (1 - (((now - t : Int) : ℚ) - 30) / (365 - 30)) ∧
        0 < recencyFromAge (now - t) ∧ recencyFromAge (now - t) < 1) ∧
      (now - t = 180 →
        calc_recency_score now d = .ok (1 - (180 - 30) / (365 - 30)))) ∧
    (∀ (d : Document) (now : Int),
      relevantDateField d = none → calc_recency_score now d = .ok 0) := by
  constructor
  · intro d now t s hf hp
    have hrec := calc_recency_parsed now hf hp
    refine ⟨?_, ?_, ?_, ?_⟩
    · intro h30
      rw [hrec, recencyFromAge, if_pos (by simpa [RECENT_THRESHOLD_DAYS] using h30)]
    · intro h365
      rw [hrec, recencyFromAge,
        if_neg (by simp only [RECENT_THRESHOLD_DAYS]; omega),
        if_pos (by simpa [MAX_AGE_DAYS] using h365)]
    · intro hlo hhi
      have hval : recencyFromAge (now - t) =
          1 - (((now - t : Int) : ℚ) - 30) / (365 - 30) := by
        rw [recencyFromAge,
          if_neg (by simp only [RECENT_THRESHOLD_DAYS]; omega),
          if_neg (by simp only [MAX_AGE_DAYS]; omega)]
        simp only [RECENT_THRESHOLD_DAYS, MAX_AGE_DAYS]
        push_cast
        norm_num
      refine ⟨by rw [hrec, hval], ?_, ?_⟩
      · rw [hval]
        have h1 : (30 : ℚ) < ((now - t : Int) : ℚ) := by exact_mod_cast hlo
        have h2 : ((now - t : Int) : ℚ) < 365 := by exact_mod_cast hhi
        have hq : (((now - t : Int) : ℚ) - 30) / (365 - 30) < 1 := by
          rw [div_lt_one (by norm_num)]
          linarith
        linarith
      · rw [hval]
        have h1 : (30 : ℚ) < ((now - t : Int) : ℚ) := by exact_mod_cast hlo
        have hq : 0 < (((now - t : Int) : ℚ) - 30) / (365 - 30) :=
          div_pos (by linarith) (by norm_num)
        linarith
    · intro h180
      rw [hrec, h180]
      norm_num [recencyFromAge, RECENT_THRESHOLD_DAYS, MAX_AGE_DAYS]
  · intro d now hnone
    unfold calc_recency_score
    rw [hnone]

/-- Witness for C4 at a concrete document: a support ticket resolved on
1970-01-01, viewed 180 days later, scores `1 - 150/335 = 37/67`. -/
theorem C4_recency_thresholds_witness :
    calc_recency_score 180
      ⟨"x", ⟨some "support_ticket", none, none, none, none,
        some "1970-01-01", none, none, none⟩⟩ = .ok (1 - (180 - 30) / (365 - 30)) :=
  ((C4_recency_thresholds.1
      ⟨"x", ⟨some "support_ticket", none, none, none, none,
        some "1970-01-01", none, none, none⟩⟩ 180 0 "1970-01-01"
      (by rfl) (by rfl)).2.2.2) (by decide)

/-! ## Lemmas about `merge_overlapping_regions` -/

/-- Every region produced by the merging loop starts no earlier than the
working region, provided the input starts are weakly sorted. -/
theorem mergeLoop_start_le :
    ∀ (rest : List Region) (prev : Region),
      List.Pairwise (fun a b => a.start ≤ b.start) (prev :: rest) →
      ∀ x ∈ mergeLoop prev rest, prev.start ≤ x.start
  | [], prev, _, x, hx => by
    simp only [mergeLoop, List.mem_singleton] at hx
    exact hx ▸ le_refl _
  | c :: rest, prev, h, x, hx => by
    rw [List.pairwise_cons] at h
    obtain ⟨hle, hrest⟩ := h
    rw [List.pairwise_cons] at hrest
    obtain ⟨hcle, hrest'⟩ := hrest
    unfold mergeLoop at hx
    by_cases h1 : c.start ≤ prev.stop
    · rw [if_pos h1] at hx
      by_cases h2 : prev.stop < c.stop
      · rw [if_pos h2] at hx
        exact mergeLoop_start_le rest
          { prev with stop := c.stop, content := prev.content ++ c.content }
          (List.pairwise_cons.mpr ⟨fun r hr => hle r (List.mem_cons_of_mem _ hr), hrest'⟩) x hx
      · rw [if_neg h2] at hx
        exact mergeLoop_start_le rest prev
          (List.pairwise_cons.mpr ⟨fun r hr => hle r (List.mem_cons_of_mem _ hr), hrest'⟩) x hx
    · rw [if_neg h1] at hx
      rcases List.mem_cons.mp hx with hx | hx
      · exact hx ▸ le_refl _
      · exact le_trans (hle c (List.mem_cons_self c rest))
          (mergeLoop_start_le rest c (List.pairwise_cons.mpr ⟨hcle, hrest'⟩) x hx)

/-- The merging loop yields pairwise disjoint regions with weakly sorted
starts, provided the input starts are weakly sorted. -/
theorem mergeLoop_pairwise :
    ∀ (rest : List Region) (prev : Region),
      List.Pairwise (fun a b => a.start ≤ b.start) (prev :: rest) →
      List.Pairwise (fun a b => a.stop < b.start ∧ a.start ≤ b.start)
        (mergeLoop prev rest)
  | [], prev, _ => by
    simp [mergeLoop]
  | c :: rest, prev, h => by
    rw [List.pairwise_cons] at h
    obtain ⟨hle, hrest⟩ := h
    rw [List.pairwise_cons] at hrest
    obtain ⟨hcle, hrest'⟩ := hrest
    unfold mergeLoop
    by_cases h1 : c.start ≤ prev.stop
    · rw [if_pos h1]
      by_cases h2 : prev.stop < c.stop
      · rw [if_pos h2]
        exact mergeLoop_pairwise rest _
          (List.pairwise_cons.mpr ⟨fun r hr => hle r (List.mem_cons_of_mem _ hr), hrest'⟩)
      · rw [if_neg h2]
        exact mergeLoop_pairwise rest prev
          (List.pairwise_cons.mpr ⟨fun r hr => hle r (List.mem_cons_of_mem _ hr), hrest'⟩)
    · rw [if_neg h1]
      rw [List.pairwise_cons]
      push_neg at h1
      refine ⟨fun x hx => ?_, ?_⟩
      · have hxs := mergeLoop_start_le rest c (List.pairwise_cons.mpr ⟨hcle, hrest'⟩) x hx
        exact ⟨lt_of_lt_of_le h1 hxs, le_trans (hle c (List.mem_cons_self c rest)) hxs⟩
      · exact mergeLoop_pairwise rest c (List.pairwise_cons.mpr ⟨hcle, hrest'⟩)

/-- The start-sorting step of `merge_overlapping_regions` yields weakly
sorted starts. -/
theorem sortRegions_pairwise (regions : List Region) :
    List.Pairwise (fun a b => a.start ≤ b.start) (sortRegions regions) := by
  have h := @List.sorted_mergeSort Region
    (fun a b : Region => decide (a.start ≤ b.start))
    (fun a b c hab hbc => by
      simp only [decide_eq_true_eq] at *
      exact le_trans hab hbc)
    (fun a b => by
      simp only [Bool.or_eq_true, decide_eq_true_eq]
      exact le_total a.start b.start)
    regions
  exact h.imp (fun hab => by simpa using hab)

/-- C7 (amended): `merge_overlapping_regions` returns regions with weakly
sorted starts that are pairwise non-overlapping (each region ends strictly
before the next starts).  For two start-sorted regions: when they overlap
and the second extends past the first, they merge into one region spanning
both with concatenated contents; when the second is contained (its end not
past the first's), it is absorbed and its content is dropped; disjoint
regions are kept separate. -/
theorem C7_merge_regions :
    (∀ regions : List Region,
      List.Pairwise (fun a b => a.stop < b.start ∧ a.start ≤ b.start)
        (merge_overlapping_regions regions)) ∧
    (∀ a b : Region, a.start ≤ b.start →
      (b.start ≤ a.stop → a.stop < b.stop →
        merge_overlapping_regions [a, b] =
          [{ a with stop := b.stop, content := a.content ++ b.content }]) ∧
      (b.start ≤ a.stop → b.stop ≤ a.stop →
        merge_overlapping_regions [a, b] = [a]) ∧
      (a.stop < b.start → merge_overlapping_regions [a, b] = [a, b])) := by
  constructor
  · intro regions
    have hs := sortRegions_pairwise regions
    unfold merge_overlapping_regions
    cases h : sortRegions regions with
    | nil => exact List.Pairwise.nil
    | cons r rest =>
      rw [h] at hs
      exact mergeLoop_pairwise rest r hs
  · intro a b hab
    have hsort : sortRegions [a, b] = [a, b] :=
      List.mergeSort_of_sorted (by simp [hab])
    refine ⟨fun h1 h2 => ?_, fun h1 h2 => ?_, fun h1 => ?_⟩
    · unfold merge_overlapping_regions
      rw [hsort]
      show mergeLoop a [b] = _
      unfold mergeLoop
      rw [if_pos h1, if_pos h2]
      rfl
    · unfold merge_overlapping_regions
      rw [hsort]
      show mergeLoop a [b] = _
      unfold mergeLoop
      rw [if_pos h1, if_neg (not_lt.mpr h2)]
      rfl
    · unfold merge_overlapping_regions
      rw [hsort]
      show mergeLoop a [b] = _
      unfold mergeLoop
      rw [if_neg (not_le.mpr h1)]
      rfl

/-- Witness for C7 at concrete regions: `[0,5)` with content `"X"` and
`[3,9)` with content `"Y"` overlap and merge into `[0,9)` with content
`"XY"`. -/
theorem C7_merge_regions_witness :
    merge_overlapping_regions
      [(⟨0, 5, "X", "steps"⟩ : Region), ⟨3, 9, "Y", "steps"⟩] =
      [⟨0, 9, "XY", "steps"⟩] :=
  (C7_merge_regions.2 ⟨0, 5, "X", "steps"⟩ ⟨3, 9, "Y", "steps"⟩
    (by decide)).1 (by decide) (by decide)

/-- C7 counterexample: merging `[0,10)` (content `"A"`) with the contained
region `[2,5)` (content `"B"`) yields the first region alone with content
`"A"`: the overlapping pair is not merged "with their contents
concatenated" as claimed (the contained region's content is dropped). -/
theorem C7_counterexample :
    merge_overlapping_regions
      [(⟨0, 10, "A", "section"⟩ : Region), ⟨2, 5, "B", "numbered_list"⟩] =
      [⟨0, 10, "A", "section"⟩] ∧
    (2 : Nat) ≤ 10 ∧ ("A" : String) ≠ "A" ++ "B" := by
  refine ⟨?_, by decide, by decide⟩
  have hsort : sortRegions
      [(⟨0, 10, "A", "section"⟩ : Region), ⟨2, 5, "B", "numbered_list"⟩] =
      [⟨0, 10, "A", "section"⟩, ⟨2, 5, "B", "numbered_list"⟩] :=
    List.mergeSort_of_sorted (by simp)
  unfold merge_overlapping_regions
  rw [hsort]
  show mergeLoop _ [_] = _
  unfold mergeLoop
  rw [if_pos (by decide), if_neg (by decide)]
  rfl

/-! ## Lemmas about the chunker -/

/-- Each preserve-region contributes its own block of chunks to the output
of the splitting loop: the region's content as a single chunk when it is
within twice the chunk size, and the re-split pieces otherwise. -/
theorem splitRegionsLoop_mem (baseSplit : Nat → Nat → String → List String)
    (cs co : Nat) (text : String) :
    ∀ (regions : List Region) (lastEnd : Nat) (r : Region), r ∈ regions →
      ∃ c1 c2, splitRegionsLoop baseSplit cs co text lastEnd regions =
        c1 ++ (if cs * 2 < r.content.length then
                baseSplit (cs * 2) (co * 2) r.content
              else [r.content]) ++ c2
  | r' :: rest, lastEnd, r, hr => by
    rcases List.mem_cons.mp hr with hr | hr
    · subst hr
      refine ⟨(if lastEnd < r.start then
          (if pyStrip (pySlice text lastEnd r.start) ≠ "" then
            baseSplit cs co (pySlice text lastEnd r.start) else []) else []),
          splitRegionsLoop baseSplit cs co text r.stop rest, ?_⟩
      rw [splitRegionsLoop]
    · obtain ⟨c1, c2, hc⟩ :=
        splitRegionsLoop_mem baseSplit cs co text rest r'.stop r hr
      refine ⟨(if lastEnd < r'.start then
          (if pyStrip (pySlice text lastEnd r'.start) ≠ "" then
            baseSplit cs co (pySlice text lastEnd r'.start) else []) else [])
          ++ (if cs * 2 < r'.content.length then
                baseSplit (cs * 2) (co * 2) r'.content
              else [r'.content]) ++ c1, c2, ?_⟩
      rw [splitRegionsLoop, hc]
      simp [List.append_assoc]

/-- C6: every preserve-region whose content is at most twice the target
chunk size is emitted by `_split_with_preserved_regions` as exactly one
chunk, holding the region's content verbatim and unsplit; a region whose
content exceeds twice the target chunk size is instead re-split by the
base chunker with doubled size and overlap budget. -/
theorem C6_preserve_region_atomic (baseSplit : Nat → Nat → String → List String)
    (cs co : Nat) (text : String) (regions : List Region) (r : Region)
    (hr : r ∈ regions) :
    (r.content.length ≤ cs * 2 →
      ∃ c1 c2, split_with_preserved_regions baseSplit cs co text regions =
        c1 ++ r.content :: c2) ∧
    (cs * 2 < r.content.length →
      ∃ c1 c2, split_with_preserved_regions baseSplit cs co text regions =
        c1 ++ baseSplit (cs * 2) (co * 2) r.content ++ c2) := by
  obtain ⟨c1, c2, hc⟩ := splitRegionsLoop_mem baseSplit cs co text regions 0 r hr
  constructor
  · intro hle
    refine ⟨c1, c2, ?_⟩
    rw [split_with_preserved_regions, hc, if_neg (not_lt.mpr hle)]
    simp
  · intro hgt
    refine ⟨c1, c2, ?_⟩
    rw [split_with_preserved_regions, hc, if_pos hgt]

/-- Witness for C6: a 15-character numbered-list region inside a small
document, with chunk size 1000, is emitted verbatim as a single chunk. -/
theorem C6_preserve_region_atomic_witness :
    ∃ c1 c2,
      split_with_preserved_regions (fun _ _ s => [s]) 1000 200
        "intro\n1. a\n2. b\n3. c\n"
        [⟨6, 21, "1. a\n2. b\n3. c\n", "numbered_list"⟩] =
      c1 ++ "1. a\n2. b\n3. c\n" :: c2 :=
  (C6_preserve_region_atomic (fun _ _ s => [s]) 1000 200
    "intro\n1. a\n2. b\n3. c\n"
    [⟨6, 21, "1. a\n2. b\n3. c\n", "numbered_list"⟩]
    ⟨6, 21, "1. a\n2. b\n3. c\n", "numbered_list"⟩
    (by simp)).1 (by decide)

/-! ## Lemmas about version filtering and boosting -/

/-- With no requested version, `_filter_by_version` keeps everything. -/
theorem filter_by_version_none (docs : List Document) :
    filter_by_version docs none = docs := rfl

/-- When no candidate's (truthy) version matches a truthy requested
version, the filtered set is empty. -/
theorem filter_by_version_eq_nil {docs : List Document} {v : String}
    (hv : v ≠ "") (h : ∀ d ∈ docs, effectiveVersion d ≠ some v) :
    filter_by_version docs (some v) = [] := by
  unfold filter_by_version
  rw [if_pos (pyTruthy_some_iff.mpr hv)]
  rw [List.filter_eq_nil_iff]
  intro d hd
  simp only [Bool.and_eq_true, beq_iff_eq]
  rintro ⟨-, hcontra⟩
  exact h d hd hcontra

/-- Boosting an empty candidate list yields an empty list. -/
theorem boost_similar_cases_nil (classify : String → List String)
    (query : String) : boost_similar_cases classify query [] = [] := by
  unfold boost_similar_cases
  split <;> rfl

/-- `_boost_similar_cases` either leaves a document unchanged or only
writes its `'_score_boost'` metadata entry. -/
theorem boostDoc_cases (cats : List String) (d : Document) :
    boostDoc cats d = d ∨
    boostDoc cats d =
      { d with metadata := { d.metadata with
          score_boost := some (1 + 0.2 * (interCard cats (docCategories d) : ℚ)) } } := by
  unfold boostDoc
  by_cases h1 : d.metadata.source = some "support_ticket"
  · rw [if_pos h1]
    by_cases h2 : interCard cats (docCategories d) ≠ 0
    · rw [if_pos h2]
      right
      rfl
    · rw [if_neg h2]
      left
      rfl
  · rw [if_neg h1]
    left
    rfl

/-- Boosting does not change a document's relevant date field. -/
theorem relevantDateField_boostDoc (cats : List String) (d : Document) :
    relevantDateField (boostDoc cats d) = relevantDateField d := by
  rcases boostDoc_cases cats d with h | h
  · rw [h]
  · rw [h]
    rfl

/-- Boosting does not change a document's recency score. -/
theorem calc_recency_boostDoc (now : Int) (cats : List String) (d : Document) :
    calc_recency_score now (boostDoc cats d) = calc_recency_score now d := by
  unfold calc_recency_score
  rw [relevantDateField_boostDoc]

/-! ## Error propagation in the scoring loop -/

/-- A `ValueError` from the recency computation aborts the scoring of the
candidate. -/
theorem scoreDoc_error_of_recency {now : Int} {d : Document} (hn : Bool)
    (query : String) (docs : List Document)
    (h : calc_recency_score now d = .error ()) :
    scoreDoc hn now query docs d = .error () := by
  unfold scoreDoc
  rw [h]

/-- A `ValueError` from any remaining candidate's recency computation
aborts the whole scoring loop. -/
theorem scoreLoop_error (hn : Bool) (now : Int) (query : String) :
    ∀ (rest done : List Document) (d : Document), d ∈ rest →
      calc_recency_score now d = .error () →
      scoreLoop hn now query done rest = .error ()
  | d' :: rest, done, d, hd, herr => by
    rcases List.mem_cons.mp hd with h | h
    · subst h
      rw [scoreLoop, scoreDoc_error_of_recency hn query _ herr]
    · rw [scoreLoop]
      cases hsd : scoreDoc hn now query (done ++ d' :: rest) d' with
      | error e => rfl
      | ok r =>
        rw [scoreLoop_error hn now query rest (done ++ [popBoost d']) d h herr]

/-- C1 (amended): when a non-empty version token is supplied and no
candidate's effective version equals it, `search` returns the empty list:
there is no fallback to the unfiltered candidate set. -/
theorem C1_no_version_fallback (classify : String → List String)
    (hasNeg : String → Bool) (now : Int) (query : String) (v : String)
    (k : Nat) (fetched : List Document) (hv : v ≠ "")
    (hnone : ∀ d ∈ fetched, effectiveVersion d ≠ some v) :
    search classify hasNeg now query (some v) k fetched = .ok [] := by
  unfold search scoredResults
  rw [filter_by_version_eq_nil hv hnone, boost_similar_cases_nil]
  simp [scoreLoop, sortByFinal]

/-- Example candidate: a product page carrying version metadata `"2.0"`. -/
def exDocV2 : Document :=
  ⟨"alpha", ⟨none, none, some "2.0", none, none, none, none, none, none⟩⟩

/-- Witness for C1 (amended) at a concrete candidate list where the only
candidate has version `"2.0"` and version `"3.0"` is requested. -/
theorem C1_no_version_fallback_witness :
    search (fun _ => []) (fun _ => false) 0 "q" (some "3.0") 5 [exDocV2] =
      .ok [] :=
  C1_no_version_fallback (fun _ => []) (fun _ => false) 0 "q" "3.0" 5
    [exDocV2] (by decide)
    (by
      intro d hd
      rw [List.mem_singleton] at hd
      subst hd
      decide)

/-- C1 counterexample: with the single candidate `exDocV2` (version
`"2.0"`) and requested version `"3.0"`, `search` returns the empty list,
while the unfiltered search over the same candidates returns a non-empty
ranked list — so the claimed fallback to the unfiltered top-k does not
happen. -/
theorem C1_counterexample :
    search (fun _ => []) (fun _ => false) 0 "q" (some "3.0") 5 [exDocV2] =
      .ok [] ∧
    search (fun _ => []) (fun _ => false) 0 "q" none 5 [exDocV2] =
      .ok [(exDocV2, 2/5)] := by
  constructor
  · have h1 : scoredResults (fun _ => []) (fun _ => false) 0 "q" (some "3.0")
        [exDocV2] = .ok [] := rfl
    unfold search
    rw [h1]
    simp [sortByFinal]
  · have h2 : scoredResults (fun _ => []) (fun _ => false) 0 "q" none
        [exDocV2] = .ok [⟨exDocV2, 1, 0, 0, 0, 2/5⟩] := by
      with_unfolding_all rfl
    unfold search
    rw [h2]
    simp [sortByFinal]

/-- C2 (amended): a candidate whose relevant date field is present,
non-empty, and unparsable makes the whole `search` fail with the
propagated `ValueError` (there is no local recovery to recency 0.0). -/
theorem C2_unparsable_date_fails (classify : String → List String)
    (hasNeg : String → Bool) (now : Int) (query : String) (k : Nat)
    (fetched : List Document) (d : Document) (s : String)
    (hd : d ∈ fetched) (hf : relevantDateField d = some s) (hne : s ≠ "")
    (hp : fromisoformat s = none) :
    search classify hasNeg now query none k fetched = .error () := by
  have herr : calc_recency_score now d = .error () := by
    simp only [calc_recency_score, hf, if_neg hne, hp]
  have hmem : ∃ d', d' ∈ boost_similar_cases classify query
      (filter_by_version fetched none) ∧
      calc_recency_score now d' = .error () := by
    rw [filter_by_version_none]
    unfold boost_similar_cases
    by_cases hc : classify query = []
    · rw [if_pos hc]
      exact ⟨d, hd, herr⟩
    · rw [if_neg hc]
      exact ⟨boostDoc (classify query) d, List.mem_map_of_mem _ hd,
        (calc_recency_boostDoc now _ d).trans herr⟩
  obtain ⟨d', hd', herr'⟩ := hmem
  have hsl := scoreLoop_error (hasNeg query) now query _ [] d' hd' herr'
  unfold search scoredResults
  rw [hsl]

/-- Example candidate whose `last_updated` field holds an unparsable
date string. -/
def exDocBadDate : Document :=
  ⟨"x", ⟨none, none, none, none, none, none, none, some "not-a-date", none⟩⟩

/-- Witness for C2 (amended): searching over the single candidate
`exDocBadDate` fails. -/
theorem C2_unparsable_date_fails_witness :
    search (fun _ => []) (fun _ => false) 0 "q" none 5 [exDocBadDate] =
      .error () :=
  C2_unparsable_date_fails (fun _ => []) (fun _ => false) 0 "q" 5
    [exDocBadDate] exDocBadDate "not-a-date"
    (List.mem_singleton.mpr rfl) rfl (by decide) rfl

/-- C2 counterexample: the candidate `exDocBadDate` carries the present
but unparsable date `"not-a-date"`; `search` over it raises (returns
`Except.error`) instead of completing with recency score 0.0. -/
theorem C2_counterexample :
    fromisoformat "not-a-date" = none ∧
    search (fun _ => []) (fun _ => false) 0 "q" none 5 [exDocBadDate] =
      .error () := by
  refine ⟨rfl, ?_⟩
  have herr : calc_recency_score 0 exDocBadDate = .error () := rfl
  have hsl := scoreLoop_error false 0 "q" [exDocBadDate] [] exDocBadDate
    (List.mem_singleton.mpr rfl) herr
  unfold search scoredResults
  rw [filter_by_version_none]
  unfold boost_similar_cases
  rw [if_pos rfl]
  rw [hsl]

/-! ## Pointwise characterization of the scoring loop -/

/-- Popping the transient boost of a document without one is the
identity. -/
theorem popBoost_eq_self {d : Document} (h : d.metadata.score_boost = none) :
    popBoost d = d := by
  cases d with
  | mk pc md =>
    cases md
    unfold popBoost
    simp_all

/-- Popping after boosting equals popping alone. -/
theorem popBoost_boostDoc (cats : List String) (d : Document) :
    popBoost (boostDoc cats d) = popBoost d := by
  rcases boostDoc_cases cats d with h | h <;> rw [h]
  rfl

/-- Boosting does not change the keyword score. -/
theorem calc_keyword_boostDoc (query : String) (cats : List String)
    (d : Document) :
    calc_keyword_score query (boostDoc cats d) = calc_keyword_score query d := by
  rcases boostDoc_cases cats d with h | h <;> rw [h]
  rfl

/-- Boosting does not change the document-priority score. -/
theorem calc_doc_priority_boostDoc (cats : List String) (d : Document) :
    calc_doc_priority (boostDoc cats d) = calc_doc_priority d := by
  rcases boostDoc_cases cats d with h | h <;> rw [h]
  rfl

/-- A candidate that is not a support ticket, or whose categories do not
overlap the query's, is left unchanged by the boost step. -/
theorem boostDoc_eq_self {cats : List String} {d : Document}
    (h : d.metadata.source ≠ some "support_ticket" ∨
      interCard cats (docCategories d) = 0) :
    boostDoc cats d = d := by
  unfold boostDoc
  rcases h with h | h
  · rw [if_neg h]
  · by_cases h1 : d.metadata.source = some "support_ticket"
    · rw [if_pos h1, if_neg (by simpa using h)]
    · rw [if_neg h1]

/-- A support ticket with overlapping categories receives the transient
boost `1 + 0.2 × overlap`. -/
theorem boostDoc_score_boost (cats : List String) {d : Document}
    (h1 : d.metadata.source = some "support_ticket")
    (h2 : interCard cats (docCategories d) ≠ 0) :
    (boostDoc cats d).metadata.score_boost =
      some (1 + 0.2 * (interCard cats (docCategories d) : ℚ)) := by
  unfold boostDoc
  rw [if_pos h1, if_pos h2]

/-- `scoreDocOk` reads the list state only through the candidate's first
index and the list length. -/
theorem scoreDocOk_congr {hn : Bool} {query : String}
    {docs1 docs2 : List Document} {d : Document} {rcy : ℚ}
    (hidx : List.indexOf d docs1 = List.indexOf d docs2)
    (hlen : docs1.length = docs2.length) :
    scoreDocOk hn query docs1 d rcy = scoreDocOk hn query docs2 d rcy := by
  unfold scoreDocOk
  rw [hidx, hlen]

/-- A successful recency score makes `scoreDoc` succeed with the explicit
record. -/
theorem scoreDoc_ok {hn : Bool} {now : Int} {query : String}
    {docs : List Document} {d : Document} {rcy : ℚ}
    (h : calc_recency_score now d = .ok rcy) :
    scoreDoc hn now query docs d = .ok (scoreDocOk hn query docs d rcy) := by
  unfold scoreDoc
  rw [h]

/-- The scoring loop succeeds as soon as every remaining candidate's
recency score does. -/
theorem scoreLoop_ok_exists (hn : Bool) (now : Int) (query : String) :
    ∀ (rest done : List Document),
      (∀ d ∈ rest, ∃ rcy, calc_recency_score now d = .ok rcy) →
      ∃ rs, scoreLoop hn now query done rest = .ok rs
  | [], _, _ => ⟨[], rfl⟩
  | d :: rest, done, h => by
    obtain ⟨rcy, hrcy⟩ := h d (List.mem_cons_self d rest)
    obtain ⟨rs, hrs⟩ := scoreLoop_ok_exists hn now query rest
      (done ++ [popBoost d]) (fun x hx => h x (List.mem_cons_of_mem _ hx))
    exact ⟨scoreDocOk hn query (done ++ d :: rest) d rcy :: rs, by
      rw [scoreLoop, scoreDoc_ok hrcy, hrs]⟩

/-- Pointwise description of a successful scoring loop: the `i`-th result
is the explicit scoring record of the `i`-th remaining candidate, computed
against the list state in which the already-processed candidates have had
their `'_score_boost'` entries popped in place. -/
theorem scoreLoop_ok_pointwise (hn : Bool) (now : Int) (query : String) :
    ∀ (rest done : List Document) (rs : List SearchResult),
      scoreLoop hn now query done rest = .ok rs →
      rs.length = rest.length ∧
      ∀ i (hi : i < rest.length) (hi' : i < rs.length),
        ∃ rcy, calc_recency_score now rest[i] = .ok rcy ∧
          rs[i] = scoreDocOk hn query
            (done ++ (rest.take i).map popBoost ++ rest.drop i) rest[i] rcy
  | [], done, rs, h => by
    rw [scoreLoop] at h
    injection h with h
    subst h
    exact ⟨rfl, fun i hi => absurd hi (by simp)⟩
  | d :: rest, done, rs, h => by
    rw [scoreLoop] at h
    cases hsd : scoreDoc hn now query (done ++ d :: rest) d with
    | error e => rw [hsd] at h; cases h
    | ok r =>
      rw [hsd] at h
      cases hsl : scoreLoop hn now query (done ++ [popBoost d]) rest with
      | error e => rw [hsl] at h; cases h
      | ok rs' =>
        rw [hsl] at h
        injection h with h
        subst h
        obtain ⟨hlen, hpw⟩ :=
          scoreLoop_ok_pointwise hn now query rest (done ++ [popBoost d]) rs' hsl
        refine ⟨by simpa using hlen, fun i hi hi' => ?_⟩
        cases i with
        | zero =>
          cases hrc : calc_recency_score now d with
          | error e => rw [scoreDoc_error_of_recency hn query _ hrc] at hsd; cases hsd
          | ok rcy =>
            rw [scoreDoc_ok hrc] at hsd
            injection hsd with hsd
            exact ⟨rcy, by simpa using hrc, by simpa using hsd.symm⟩
        | succ j =>
          have hj : j < rest.length := by simpa using hi
          have hj' : j < rs'.length := by simpa using hi'
          obtain ⟨rcy, hrc, hform⟩ := hpw j hj hj'
          refine ⟨rcy, by simpa using hrc, ?_⟩
          have hgoal : (r :: rs')[j + 1] = rs'[j] := by simp
          rw [hgoal, hform]
          congr 1
          simp [List.append_assoc]

/-- The semantic-score field of a scoring record. -/
theorem scoreDocOk_semantic (hn : Bool) (query : String)
    (docs : List Document) (d : Document) (rcy : ℚ) :
    (scoreDocOk hn query docs d rcy).semantic_score =
      (if hn then 1 - (1 - (List.indexOf d docs : ℚ) / (docs.length : ℚ))
       else 1 - (List.indexOf d docs : ℚ) / (docs.length : ℚ)) *
        d.metadata.score_boost.getD 1 := rfl

/-- The keyword-score field of a scoring record. -/
theorem scoreDocOk_keyword (hn : Bool) (query : String)
    (docs : List Document) (d : Document) (rcy : ℚ) :
    (scoreDocOk hn query docs d rcy).keyword_score =
      (if hn then 1 - calc_keyword_score query d
       else calc_keyword_score query d) * d.metadata.score_boost.getD 1 := rfl

/-- The stored document of a scoring record is the candidate after the
`'_score_boost'` pop. -/
theorem scoreDocOk_document (hn : Bool) (query : String)
    (docs : List Document) (d : Document) (rcy : ℚ) :
    (scoreDocOk hn query docs d rcy).document = popBoost d := rfl

/-- The final score of a scoring record is the weighted combination of
its four component scores. -/
theorem scoreDocOk_final (hn : Bool) (query : String)
    (docs : List Document) (d : Document) (rcy : ℚ) :
    (scoreDocOk hn query docs d rcy).final_score =
      calc_final_score (scoreDocOk hn query docs d rcy) := rfl

/-- Popping boosts over a boost-free list is the identity. -/
theorem map_popBoost_eq_self {L : List Document}
    (h : ∀ d ∈ L, d.metadata.score_boost = none) : L.map popBoost = L := by
  induction L with
  | nil => rfl
  | cons d L ih =>
    rw [List.map_cons, popBoost_eq_self (h d (List.mem_cons_self d L)),
      ih (fun x hx => h x (List.mem_cons_of_mem _ hx))]

/-- C10: after `search` succeeds, no returned document carries the
transient `'_score_boost'` metadata entry: every candidate's boost is
popped during scoring. -/
theorem C10_no_transient_boost (classify : String → List String)
    (hasNeg : String → Bool) (now : Int) (query : String)
    (version : Option String) (k : Nat) (fetched : List Document)
    (pairs : List (Document × ℚ))
    (h : search classify hasNeg now query version k fetched = .ok pairs) :
    ∀ p ∈ pairs, p.1.metadata.score_boost = none := by
  unfold search at h
  cases hsr : scoredResults classify hasNeg now query version fetched with
  | error e => rw [hsr] at h; cases h
  | ok rs =>
    rw [hsr] at h
    injection h with h
    subst h
    intro p hp
    obtain ⟨r, hr, hpr⟩ := List.mem_map.mp hp
    have hr3 : r ∈ rs := by
      have hr2 : r ∈ sortByFinal rs := List.mem_of_mem_take hr
      unfold sortByFinal at hr2
      exact List.mem_mergeSort.mp hr2
    obtain ⟨i, hi, hri⟩ := List.mem_iff_getElem.mp hr3
    unfold scoredResults at hsr
    obtain ⟨hlen, hpw⟩ := scoreLoop_ok_pointwise _ _ _ _ _ _ hsr
    obtain ⟨rcy, hrc, hform⟩ := hpw i (by omega) hi
    rw [← hpr, ← hri, hform]
    rfl

/-- A falsy optional string is absent or empty. -/
theorem pyTruthy_false_cases {o : Option String} (h : pyTruthy o = false) :
    o = none ∨ o = some "" := by
  cases o with
  | none => exact .inl rfl
  | some s =>
    right
    have hs : s = "" := by simpa [pyTruthy] using h
    rw [hs]

/-- A document with no (truthy) relevant date field always scores
recency 0.0, whatever the current time. -/
theorem calc_recency_dateFree {d : Document} (now : Int)
    (h : pyTruthy (relevantDateField d) = false) :
    calc_recency_score now d = .ok 0 := by
  rcases pyTruthy_false_cases h with h2 | h2 <;>
    simp [calc_recency_score, h2]

/-- Version filtering only removes candidates. -/
theorem filter_by_version_subset {docs : List Document}
    {version : Option String} :
    ∀ d ∈ filter_by_version docs version, d ∈ docs := by
  unfold filter_by_version
  split
  · intro d hd
    exact List.mem_of_mem_filter hd
  · intro d hd
    exact hd

/-- The scoring loop does not depend on the current time when no remaining
candidate has a (truthy) date field. -/
theorem scoreLoop_now_indep (hn : Bool) (query : String) (now1 now2 : Int) :
    ∀ (rest done : List Document),
      (∀ d ∈ rest, pyTruthy (relevantDateField d) = false) →
      scoreLoop hn now1 query done rest = scoreLoop hn now2 query done rest
  | [], _, _ => rfl
  | d :: rest, done, h => by
    rw [scoreLoop, scoreLoop,
      scoreDoc_ok (calc_recency_dateFree now1 (h d (List.mem_cons_self d rest))),
      scoreDoc_ok (calc_recency_dateFree now2 (h d (List.mem_cons_self d rest))),
      scoreLoop_now_indep hn query now1 now2 rest (done ++ [popBoost d])
        (fun x hx => h x (List.mem_cons_of_mem _ hx))]

/-- C9 (amended): `search` has no hidden randomness; its only source of
call-to-call variation is the current time read inside the recency score.
Over candidates with no date metadata, calls at any two times return
identical orderings and scores. -/
theorem C9_deterministic_up_to_clock (classify : String → List String)
    (hasNeg : String → Bool) (query : String) (version : Option String)
    (k : Nat) (fetched : List Document) (now1 now2 : Int)
    (h : ∀ d ∈ fetched, pyTruthy (relevantDateField d) = false) :
    search classify hasNeg now1 query version k fetched =
      search classify hasNeg now2 query version k fetched := by
  have hB : ∀ d' ∈ boost_similar_cases classify query
      (filter_by_version fetched version),
      pyTruthy (relevantDateField d') = false := by
    intro d' hd'
    unfold boost_similar_cases at hd'
    split at hd'
    · exact h d' (filter_by_version_subset d' hd')
    · obtain ⟨d0, hd0, rfl⟩ := List.mem_map.mp hd'
      rw [relevantDateField_boostDoc]
      exact h d0 (filter_by_version_subset d0 hd0)
  have hsl := scoreLoop_now_indep (hasNeg query) query now1 now2
    (boost_similar_cases classify query (filter_by_version fetched version))
    [] hB
  unfold search scoredResults
  rw [hsl]

/-- Witness for C9 (amended): over the dateless candidate `exDocV2`,
searching at times 0 and 400 gives identical results. -/
theorem C9_deterministic_up_to_clock_witness :
    search (fun _ => []) (fun _ => false) 0 "q" none 5 [exDocV2] =
      search (fun _ => []) (fun _ => false) 400 "q" none 5 [exDocV2] :=
  C9_deterministic_up_to_clock (fun _ => []) (fun _ => false) "q" none 5
    [exDocV2] 0 400
    (by
      intro d hd
      rw [List.mem_singleton] at hd
      subst hd
      rfl)

/-- Example candidate dated 1970-01-01 in its `last_updated` field. -/
def exDocDated : Document :=
  ⟨"x", ⟨none, none, none, none, none, none, none, some "1970-01-01", none⟩⟩

/-- C9 counterexample: over the dated candidate `exDocDated`, two `search`
calls that differ only in the current time (day 0 versus day 400, i.e.
before and after the document ages past the 365-day cutoff) return
different scores: the recency term reads the clock, so repeated calls are
not identical. -/
theorem C9_counterexample :
    search (fun _ => []) (fun _ => false) 0 "q" none 5 [exDocDated] =
      .ok [(exDocDated, 1/2)] ∧
    search (fun _ => []) (fun _ => false) 400 "q" none 5 [exDocDated] =
      .ok [(exDocDated, 2/5)] ∧
    (1/2 : ℚ) ≠ 2/5 := by
  refine ⟨?_, ?_, by norm_num⟩
  · have h1 : scoredResults (fun _ => []) (fun _ => false) 0 "q" none
        [exDocDated] = .ok [⟨exDocDated, 1, 0, 0, 1, 1/2⟩] := by
      with_unfolding_all rfl
    unfold search
    rw [h1]
    simp [sortByFinal]
  · have h2 : scoredResults (fun _ => []) (fun _ => false) 400 "q" none
        [exDocDated] = .ok [⟨exDocDated, 1, 0, 0, 0, 2/5⟩] := by
      with_unfolding_all rfl
    unfold search
    rw [h2]
    simp [sortByFinal]

/-- C3 (amended): when the retrieved candidates are pairwise distinct and
carry no stale boost entry (and no negation or category boost applies),
the candidate at rank `i` of `n` receives base semantic score `1 - i/n`:
rank 0 scores exactly 1.0 and scores decrease linearly with rank.  (With
duplicate candidates, `list.index` reuses the first matching position, so
equal candidates share the first occurrence's score instead.) -/
theorem C3_rank_semantic (classify : String → List String)
    (hasNeg : String → Bool) (now : Int) (query : String)
    (fetched : List Document) (rs : List SearchResult)
    (hcats : classify query = []) (hneg : hasNeg query = false)
    (hnd : fetched.Nodup)
    (hclean : ∀ d ∈ fetched, d.metadata.score_boost = none)
    (hrs : scoredResults classify hasNeg now query none fetched = .ok rs) :
    rs.length = fetched.length ∧
    ∀ i (_ : i < fetched.length) (hi' : i < rs.length),
      rs[i].semantic_score = 1 - (i : ℚ) / (fetched.length : ℚ) := by
  unfold scoredResults at hrs
  rw [filter_by_version_none] at hrs
  unfold boost_similar_cases at hrs
  rw [if_pos hcats] at hrs
  obtain ⟨hlen, hpw⟩ := scoreLoop_ok_pointwise _ _ _ _ _ _ hrs
  refine ⟨hlen, fun i hi hi' => ?_⟩
  obtain ⟨rcy, hrc, hform⟩ := hpw i hi hi'
  have hdocs : ([] : List Document) ++ (fetched.take i).map popBoost ++
      fetched.drop i = fetched := by
    rw [List.nil_append,
      map_popBoost_eq_self (fun x hx => hclean x (List.mem_of_mem_take hx)),
      List.take_append_drop]
  rw [hform, hdocs, scoreDocOk_semantic, hneg,
    hclean fetched[i] (List.getElem_mem hi),
    List.indexOf_getElem hnd i hi]
  simp

/-- Witness for C3 (amended) at the singleton candidate list `[exDocV2]`:
the rank-0 candidate's semantic score is `1 - 0/1 = 1`. -/
theorem C3_rank_semantic_witness :
    ([⟨exDocV2, 1, 0, 0, 0, 2/5⟩] : List SearchResult)[0].semantic_score =
      1 - (0 : ℚ) / (([exDocV2] : List Document).length : ℚ) :=
  (C3_rank_semantic (fun _ => []) (fun _ => false) 0 "q" [exDocV2]
    [⟨exDocV2, 1, 0, 0, 0, 2/5⟩] rfl rfl (List.nodup_singleton _)
    (by
      intro d hd
      rw [List.mem_singleton] at hd
      subst hd
      rfl)
    (by with_unfolding_all rfl)).2 0 (by decide) (by decide)

/-- Example candidate with empty metadata, used twice to form a duplicate
candidate list. -/
def exDocDup : Document := ⟨"x", Metadata.empty⟩

/-- C3 counterexample: over the duplicate candidate list
`[exDocDup, exDocDup]` (n = 2), the rank-1 candidate's semantic score is
`1` (via `list.index`, which returns the first matching position), not the
claimed `1 - 1/2`: both scored records are identical. -/
theorem C3_counterexample :
    scoredResults (fun _ => []) (fun _ => false) 0 "q" none
      [exDocDup, exDocDup] =
      .ok [⟨exDocDup, 1, 0, 0, 0, 2/5⟩, ⟨exDocDup, 1, 0, 0, 0, 2/5⟩] ∧
    (1 : ℚ) ≠ 1 - 1/2 :=
  ⟨by with_unfolding_all rfl, by norm_num⟩

/-- Example candidate: a resolved support ticket in category `"error"`,
resolved on 1970-01-01, whose content contains the query term. -/
def exDocTicket : Document :=
  ⟨"q", ⟨some "support_ticket", some "resolved", none, none, some "error",
    some "1970-01-01", none, none, none⟩⟩

/-- C8: every scored candidate's final score equals
`semantic*0.4 + keyword*0.3 + doc_priority*0.2 + recency*0.1`; when every
component lies in `[0,1]` the final score lies in `[0,1]`; and a boosted
search can return a score above 1.0 with no clamping (a concrete boosted
run returns `161/150 > 1`). -/
theorem C8_weighted_final_score :
    (∀ (hn : Bool) (now : Int) (query : String) (docs : List Document)
      (d : Document) (r : SearchResult),
      scoreDoc hn now query docs d = .ok r →
      r.final_score = r.semantic_score * 0.4 + r.keyword_score * 0.3 +
        r.doc_priority * 0.2 + r.recency_score * 0.1) ∧
    (∀ r : SearchResult,
      0 ≤ r.semantic_score → r.semantic_score ≤ 1 →
      0 ≤ r.keyword_score → r.keyword_score ≤ 1 →
      0 ≤ r.doc_priority → r.doc_priority ≤ 1 →
      0 ≤ r.recency_score → r.recency_score ≤ 1 →
      0 ≤ calc_final_score r ∧ calc_final_score r ≤ 1) ∧
    (search (fun _ => ["error"]) (fun _ => false) 0 "q" none 5
        [exDocTicket] = .ok [(exDocTicket, 161/150)] ∧
      (1 : ℚ) < 161/150) := by
  refine ⟨?_, ?_, ?_, by norm_num⟩
  · intro hn now query docs d r h
    cases hrc : calc_recency_score now d with
    | error e =>
      rw [scoreDoc_error_of_recency hn query docs hrc] at h
      cases h
    | ok rcy =>
      rw [scoreDoc_ok hrc] at h
      injection h with h
      subst h
      rfl
  · intro r h1 h2 h3 h4 h5 h6 h7 h8
    unfold calc_final_score
    constructor <;> nlinarith
  · have hsr : scoredResults (fun _ => ["error"]) (fun _ => false) 0 "q"
        none [exDocTicket] =
        .ok [⟨exDocTicket, 6/5, 6/5, 2/3, 1, 161/150⟩] := by
      with_unfolding_all rfl
    unfold search
    rw [hsr]
    simp [sortByFinal]

/-- Witness for C8 at a concrete scoring record with all components 1:
the weighted final score is within `[0,1]`. -/
theorem C8_weighted_final_score_witness :
    0 ≤ calc_final_score ⟨exDocDup, 1, 1, 1, 1, 0⟩ ∧
    calc_final_score ⟨exDocDup, 1, 1, 1, 1, 0⟩ ≤ 1 :=
  C8_weighted_final_score.2.1 ⟨exDocDup, 1, 1, 1, 1, 0⟩
    (by norm_num) (by norm_num) (by norm_num) (by norm_num)
    (by norm_num) (by norm_num) (by norm_num) (by norm_num)

/-- Witness for C10 at the boosted concrete run of C8's ticket: the
returned document carries no `'_score_boost'` entry. -/
theorem C10_no_transient_boost_witness :
    ((exDocTicket, (161/150 : ℚ)) : Document × ℚ).1.metadata.score_boost =
      none :=
  C10_no_transient_boost (fun _ => ["error"]) (fun _ => false) 0 "q" none 5
    [exDocTicket] [(exDocTicket, 161/150)]
    (by
      have hsr : scoredResults (fun _ => ["error"]) (fun _ => false) 0 "q"
          none [exDocTicket] =
          .ok [⟨exDocTicket, 6/5, 6/5, 2/3, 1, 161/150⟩] := by
        with_unfolding_all rfl
      unfold search
      rw [hsr]
      simp [sortByFinal])
    (exDocTicket, 161/150) (List.mem_singleton.mpr rfl)

/-- Popping the boosts written over a boost-free list restores the list. -/
theorem map_popBoost_boostDoc {L : List Document} (cats : List String)
    (h : ∀ d ∈ L, d.metadata.score_boost = none) :
    (L.map (boostDoc cats)).map popBoost = L := by
  induction L with
  | nil => rfl
  | cons d L ih =>
    simp only [List.map_cons]
    rw [popBoost_boostDoc, popBoost_eq_self (h d (List.mem_cons_self d L)),
      ih (fun x hx => h x (List.mem_cons_of_mem _ hx))]

/-- In the mixed list state of the boosted scoring loop (popped originals
before position `i`, boosted candidates from `i` on), the boosted `i`-th
candidate is first found at index `i`, provided the candidate list is
duplicate-free and boost-free. -/
theorem indexOf_boosted {L : List Document} (cats : List String)
    (hnd : L.Nodup) (hclean : ∀ d ∈ L, d.metadata.score_boost = none)
    {i : Nat} (hi : i < L.length) :
    List.indexOf (boostDoc cats L[i])
      (L.take i ++ (L.drop i).map (boostDoc cats)) = i := by
  have hnotmem : boostDoc cats L[i] ∉ L.take i := by
    intro hmem
    rcases boostDoc_cases cats L[i] with hfd | hfd
    · rw [hfd] at hmem
      have hdisj : List.Disjoint (L.take i) (L.drop i) :=
        List.disjoint_of_nodup_append
          (by rw [List.take_append_drop]; exact hnd)
      have hdrop : L[i] ∈ L.drop i := by
        rw [List.drop_eq_getElem_cons hi]
        exact List.mem_cons_self _ _
      exact hdisj hmem hdrop
    · have hc := hclean _ (List.mem_of_mem_take hmem)
      rw [hfd] at hc
      exact Option.noConfusion hc
  rw [List.indexOf_append_of_not_mem hnotmem,
    List.drop_eq_getElem_cons hi, List.map_cons, List.indexOf_cons_self,
    List.length_take]
  omega

/-- C5 (amended): with at least one classified query category and a
duplicate-free filtered candidate list without stale boost entries, a
support-ticket candidate whose categories overlap the query's in `m ≥ 1`
categories has its semantic and keyword scores each multiplied by exactly
`1 + 0.2·m` relative to the computation without the boost step, the boost
applied once; candidates that are not support tickets or have no category
overlap are scored exactly as without the boost step.  (`rs` is the
scoring of `L` without the boost step.  Over duplicate candidates the
factor can fail, because popping the first duplicate's boost in place
changes `list.index` for the later occurrence — see the accompanying
counterexample.) -/
theorem C5_category_boost (classify : String → List String)
    (hasNeg : String → Bool) (now : Int) (query : String)
    (version : Option String) (fetched L : List Document)
    (rs : List SearchResult)
    (hL : filter_by_version fetched version = L)
    (hcats : classify query ≠ [])
    (hnd : L.Nodup)
    (hclean : ∀ d ∈ L, d.metadata.score_boost = none)
    (hun : scoreLoop (hasNeg query) now query [] L = .ok rs)
    (i : Nat) (hi : i < L.length) :
    ∃ rs', scoredResults classify hasNeg now query version fetched = .ok rs' ∧
      rs'.length = L.length ∧ rs.length = L.length ∧
      ∀ (hi1 : i < rs'.length) (hi2 : i < rs.length),
        (L[i].metadata.source = some "support_ticket" →
          1 ≤ interCard (classify query) (docCategories L[i]) →
          rs'[i].semantic_score =
            (1 + 0.2 * (interCard (classify query) (docCategories L[i]) : ℚ)) *
              rs[i].semantic_score ∧
          rs'[i].keyword_score =
            (1 + 0.2 * (interCard (classify query) (docCategories L[i]) : ℚ)) *
              rs[i].keyword_score) ∧
        ((L[i].metadata.source ≠ some "support_ticket" ∨
          interCard (classify query) (docCategories L[i]) = 0) →
          rs'[i] = rs[i]) := by
  obtain ⟨hlen_u, hpw_u⟩ := scoreLoop_ok_pointwise _ _ _ _ _ _ hun
  have hrec : ∀ d ∈ L.map (boostDoc (classify query)), ∃ rcy,
      calc_recency_score now d = .ok rcy := by
    intro d' hd'
    obtain ⟨d0, hd0, hd0'⟩ := List.mem_map.mp hd'
    obtain ⟨j, hj, hj0⟩ := List.mem_iff_getElem.mp hd0
    obtain ⟨rcy, hrc, -⟩ := hpw_u j hj (by omega)
    refine ⟨rcy, ?_⟩
    rw [← hd0', calc_recency_boostDoc, ← hj0]
    exact hrc
  obtain ⟨rs', hrs'⟩ := scoreLoop_ok_exists _ _ _
    (L.map (boostDoc (classify query))) [] hrec
  obtain ⟨hlen_b, hpw_b⟩ := scoreLoop_ok_pointwise _ _ _ _ _ _ hrs'
  refine ⟨rs', ?_, by simpa using hlen_b, by rw [hlen_u],
    fun hi1 hi2 => ?_⟩
  · unfold scoredResults
    rw [hL]
    unfold boost_similar_cases
    rw [if_neg hcats]
    exact hrs'
  obtain ⟨rcyu, hrcu, hformu⟩ := hpw_u i hi hi2
  have hib : i < (L.map (boostDoc (classify query))).length := by
    simpa using hi
  obtain ⟨rcyb, hrcb, hformb⟩ := hpw_b i hib hi1
  have hdocs_u : ([] : List Document) ++ (L.take i).map popBoost ++
      L.drop i = L := by
    rw [List.nil_append,
      map_popBoost_eq_self (fun x hx => hclean x (List.mem_of_mem_take hx)),
      List.take_append_drop]
  rw [hdocs_u] at hformu
  have hgetb : (L.map (boostDoc (classify query)))[i] =
      boostDoc (classify query) L[i] := by simp
  have hdocs_b : ([] : List Document) ++
      ((L.map (boostDoc (classify query))).take i).map popBoost ++
      (L.map (boostDoc (classify query))).drop i =
      L.take i ++ (L.drop i).map (boostDoc (classify query)) := by
    rw [List.nil_append, ← List.map_take, ← List.map_drop,
      map_popBoost_boostDoc _ (fun x hx => hclean x (List.mem_of_mem_take hx))]
  rw [hdocs_b, hgetb] at hformb
  rw [hgetb, calc_recency_boostDoc, hrcu] at hrcb
  injection hrcb with hrcy
  subst hrcy
  have hidx_b : List.indexOf (boostDoc (classify query) L[i])
      (L.take i ++ (L.drop i).map (boostDoc (classify query))) = i :=
    indexOf_boosted _ hnd hclean hi
  have hidx_u : List.indexOf L[i] L = i := List.indexOf_getElem hnd i hi
  have hlen_docs : (L.take i ++
      (L.drop i).map (boostDoc (classify query))).length = L.length := by
    simp
    omega
  constructor
  · intro hticket hm
    have hm0 : interCard (classify query) (docCategories L[i]) ≠ 0 := by
      omega
    have hbf := boostDoc_score_boost (classify query) hticket hm0
    rw [hformu, hformb, scoreDocOk_semantic, scoreDocOk_semantic,
      scoreDocOk_keyword, scoreDocOk_keyword, hidx_b, hidx_u, hlen_docs,
      hbf, calc_keyword_boostDoc, hclean L[i] (List.getElem_mem hi)]
    simp only [Option.getD_some, Option.getD_none]
    constructor <;> ring
  · intro hnb
    have hfd : boostDoc (classify query) L[i] = L[i] := boostDoc_eq_self hnb
    rw [hformu, hformb, hfd]
    apply scoreDocOk_congr
    · rw [hidx_u]
      rw [hfd] at hidx_b
      exact hidx_b
    · exact hlen_docs

/-- Witness for C5 at the concrete ticket `exDocTicket` (category
`"error"`, overlapping the classified category set `["error"]` in exactly
one category): its boosted semantic and keyword scores are `1 + 0.2·1`
times the unboosted ones. -/
theorem C5_category_boost_witness :
    ∃ rs', scoredResults (fun _ => ["error"]) (fun _ => false) 0 "q" none
        [exDocTicket] = .ok rs' ∧
      rs'.length = ([exDocTicket] : List Document).length ∧
      ([⟨exDocTicket, 1, 1, 2/3, 1, 14/15⟩] : List SearchResult).length =
        ([exDocTicket] : List Document).length ∧
      ∀ (hi1 : 0 < rs'.length)
        (hi2 : 0 < ([⟨exDocTicket, 1, 1, 2/3, 1, 14/15⟩] :
          List SearchResult).length),
        (exDocTicket.metadata.source = some "support_ticket" →
          1 ≤ interCard ["error"] (docCategories exDocTicket) →
          rs'[0].semantic_score =
            ((1 : ℚ) + (0.2 : ℚ) *
                (interCard ["error"] (docCategories exDocTicket) : ℚ)) *
              ([⟨exDocTicket, 1, 1, 2/3, 1, 14/15⟩] :
                List SearchResult)[0].semantic_score ∧
          rs'[0].keyword_score =
            ((1 : ℚ) + (0.2 : ℚ) *
                (interCard ["error"] (docCategories exDocTicket) : ℚ)) *
              ([⟨exDocTicket, 1, 1, 2/3, 1, 14/15⟩] :
                List SearchResult)[0].keyword_score) ∧
        ((exDocTicket.metadata.source ≠ some "support_ticket" ∨
          interCard ["error"] (docCategories exDocTicket) = 0) →
          rs'[0] = ([⟨exDocTicket, 1, 1, 2/3, 1, 14/15⟩] :
            List SearchResult)[0]) :=
  C5_category_boost (fun _ => ["error"]) (fun _ => false) 0 "q" none
    [exDocTicket] [exDocTicket] [⟨exDocTicket, 1, 1, 2/3, 1, 14/15⟩]
    rfl (by decide) (List.nodup_singleton _)
    (by
      intro d hd
      rw [List.mem_singleton] at hd
      subst hd
      rfl)
    (by with_unfolding_all rfl) 0 (by decide)

/-- C5 counterexample: over the duplicated matching ticket list
`[exDocTicket, exDocTicket]` (overlap `m = 1`, so the claimed factor is
`1 + 0.2·1 = 1.2`), the unboosted computation scores both occurrences
semantic 1, but the boosted run scores the second occurrence semantic
`3/5`, not `1.2 × 1 = 6/5`: after the first duplicate's `'_score_boost'`
is popped in place, the still-boosted second duplicate no longer equals
it, so `initial_results.index(doc)` returns 1 instead of 0 and the boost
multiplies a different rank score. -/
theorem C5_counterexample :
    interCard ["error"] (docCategories exDocTicket) = 1 ∧
    scoreLoop false 0 "q" [] [exDocTicket, exDocTicket] =
      .ok [⟨exDocTicket, 1, 1, 2/3, 1, 14/15⟩,
        ⟨exDocTicket, 1, 1, 2/3, 1, 14/15⟩] ∧
    scoredResults (fun _ => ["error"]) (fun _ => false) 0 "q" none
      [exDocTicket, exDocTicket] =
      .ok [⟨exDocTicket, 6/5, 6/5, 2/3, 1, 161/150⟩,
        ⟨exDocTicket, 3/5, 6/5, 2/3, 1, 5/6⟩] ∧
    (3/5 : ℚ) ≠ (1 + 0.2 * 1) * 1 :=
  ⟨by decide, by with_unfolding_all rfl, by with_unfolding_all rfl,
    by norm_num⟩
